import Mathlib

/-!
Verification of the asynchronous two-stage menu extraction/enrichment
pipeline (`lesson12-async.py`): data model, media codec, deduplication,
append-only CSV store, per-image pipeline and startup sweep.

Notes on the embedding:
* Python `float` values (`price`, `google_rating`) are modelled as `Rat`:
  the pipeline only carries and formats these numbers, it never performs
  arithmetic on them, so rationals represent the decimal values exactly.
* The CSV file is `Option (List CsvLine)`: `none` means the backing file
  does not exist; a `CsvLine` is either the header row or a data row.
* External AI calls are modelled as oracle results carried by each image
  job (`Except String MenuExtraction`, `Except String RestaurantEnrichment`),
  matching the request/response contract of the source.
-/

namespace TampereFood

/-- Embeds `MenuItem(BaseModel)` from `lesson12-async.py`. -/
structure MenuItem where
  dish_name : String
  price : Rat
  currency : String := "EUR"
  category : String
  dietary_tags : List String := []
  portion_size : Option String := none
  is_daily_special : Bool := false
deriving DecidableEq, Repr

/-- Embeds `MenuExtraction(BaseModel)`. -/
structure MenuExtraction where
  restaurant_name : String
  items : List MenuItem
deriving DecidableEq, Repr

/-- Embeds `RestaurantEnrichment(BaseModel)`. -/
structure RestaurantEnrichment where
  google_rating : Option Rat := none
  address : String
  cuisine_type : String
deriving DecidableEq, Repr

/-- Embeds `EnrichedMenuExtraction(BaseModel)`. -/
structure EnrichedMenuExtraction where
  restaurant_name : String
  cuisine_type : String
  google_rating : Option Rat := none
  address : String
  items : List MenuItem
deriving DecidableEq, Repr

/-- Embeds the module constant `IMAGE_EXTENSIONS`. -/
def IMAGE_EXTENSIONS : List String := [".png", ".jpg", ".jpeg", ".gif", ".webp"]

/-- The ASCII characters Python `str.strip()` removes (its additional
Unicode whitespace code points never occur in the strings at hand). -/
def isPySpace (c : Char) : Bool :=
  c = ' ' || c = '\t' || c = '\n' || c = '\r' || c = '\x0b' || c = '\x0c'

/-- Drop leading strip-characters from a character list. -/
def dropPySpaces : List Char → List Char
  | [] => []
  | c :: cs => if isPySpace c then dropPySpaces cs else c :: cs

/-- Embeds Python `str.strip()`: remove leading and trailing whitespace. -/
def pyStrip (s : String) : String :=
  String.mk ((dropPySpaces (dropPySpaces s.toList.reverse).reverse))

/-- Embeds Python `str.lower()` on one character (ASCII case mapping; the
file suffixes and dish names at hand stay within ASCII). -/
def pyLowerChar (c : Char) : Char :=
  if 'A' ≤ c ∧ c ≤ 'Z' then Char.ofNat (c.toNat + 32) else c

/-- Embeds Python `str.lower()`. -/
def pyLower (s : String) : String := String.mk (s.toList.map pyLowerChar)

/-- Split a character list at `/`, as `pathlib` parses a POSIX path. -/
def splitSlashAux : List Char → List Char → List (List Char)
  | [], acc => [acc.reverse]
  | c :: cs, acc =>
    if c = '/' then acc.reverse :: splitSlashAux cs []
    else splitSlashAux cs (c :: acc)

/-- The final path component, as Python `pathlib.Path.name` computes it
(`Path` drops empty components produced by repeated or trailing slashes). -/
def pathName (p : String) : String :=
  String.mk (((splitSlashAux p.toList []).filter (fun c => c ≠ [])).getLastD [])

/-- Index of the last occurrence of a character in a list, if any
(Python `str.rfind`). -/
def lastIdxOf (c : Char) (cs : List Char) : Option Nat :=
  (List.range cs.length).foldl
    (fun acc i => if cs.get? i = some c then some i else acc) none

/-- Embeds Python `pathlib.PurePath.suffix`: the substring of the final
component from its last dot, provided that dot is neither the leading
character nor the last character; otherwise the empty string. -/
def pathSuffix (p : String) : String :=
  let cs := (pathName p).toList
  match lastIdxOf '.' cs with
  | some i => if 0 < i ∧ i < cs.length - 1 then String.mk (cs.drop i) else ""
  | none => ""

/-- Embeds the dictionary literal `media_types` inside `get_media_type`. -/
def media_types : List (String × String) :=
  [(".png", "image/png"), (".jpg", "image/jpeg"), (".jpeg", "image/jpeg"),
   (".gif", "image/gif"), (".webp", "image/webp")]

/-- Embeds `get_media_type(filepath)`: look the lower-cased suffix up in
`media_types`, falling back to `image/jpeg` (the `.get` default). -/
def get_media_type (filepath : String) : String :=
  ((media_types.lookup (pyLower (pathSuffix filepath))).getD "image/jpeg")

/-- The deduplication key used in `process_image`:
`item.dish_name.strip().lower()`. -/
def dedupKey (s : String) : String := pyLower (pyStrip s)

/-- Recursive rendering of the dict-insertion loop in `process_image`
(lines 198-204): walk the items in order, keep an item only when its key
has not been seen before.  `seen` is the key set of the dict built so far;
`list(unique_items.values())` is insertion order, i.e. first-seen order. -/
def dedupAux (seen : List String) : List MenuItem → List MenuItem
  | [] => []
  | item :: rest =>
    if dedupKey item.dish_name ∈ seen then dedupAux seen rest
    else item :: dedupAux (dedupKey item.dish_name :: seen) rest

/-- Embeds the deduplication step of `process_image`: keep, for each
trimmed lower-cased `dish_name`, only the first item, in first-seen order. -/
def dedup (items : List MenuItem) : List MenuItem := dedupAux [] items

/-- One flattened CSV data row, in the column order of `append_to_csv`.
`google_rating = none` models the empty cell written by
`extraction.google_rating or ''` (the cell is a number otherwise). -/
structure Row where
  timestamp : String
  source_image : String
  restaurant_name : String
  dish_name : String
  price : Rat
  category : String
  dietary_tags : String
  cuisine_type : String
  google_rating : Option Rat
  address : String
deriving DecidableEq, Repr

/-- A physical line of the backing CSV file: the header written by
`initialize_csv`, or a data row written by `append_to_csv`. -/
inductive CsvLine where
  | header
  | row (r : Row)
deriving DecidableEq, Repr

/-- The backing file: `none` when `menus-async.csv` does not exist. -/
abbrev CsvFile : Type := Option (List CsvLine)

/-- Embeds `initialize_csv()`: create the file with the header row when it
does not exist; otherwise leave it untouched. -/
def initialize_csv (f : CsvFile) : CsvFile :=
  match f with
  | none => some [CsvLine.header]
  | some c => some c

/-- Embeds `';'.join(item.dietary_tags) if item.dietary_tags else ''`. -/
def joinTags (tags : List String) : String :=
  if tags.isEmpty then "" else String.intercalate ";" tags

/-- Embeds the cell expression `extraction.google_rating or ''`: Python
`or` takes the right operand when the left is falsy, and both `None` and
`0.0` are falsy floats, so the cell is empty for an absent rating and
also for a rating of exactly 0. -/
def ratingCell (r : Option Rat) : Option Rat :=
  match r with
  | none => none
  | some v => if v = 0 then none else some v

/-- The row `writer.writerow([...])` emits for one item inside
`append_to_csv` (the timestamp is captured once per call, before the loop). -/
def rowOf (ts source_image : String) (extraction : EnrichedMenuExtraction)
    (item : MenuItem) : Row :=
  { timestamp := ts
    source_image := source_image
    restaurant_name := extraction.restaurant_name
    dish_name := item.dish_name
    price := item.price
    category := item.category
    dietary_tags := joinTags item.dietary_tags
    cuisine_type := extraction.cuisine_type
    google_rating := ratingCell extraction.google_rating
    address := extraction.address }

/-- All rows one `append_to_csv` call emits: one per item, in item order. -/
def rowsOf (ts source_image : String) (extraction : EnrichedMenuExtraction) :
    List Row :=
  extraction.items.map (rowOf ts source_image extraction)

/-- Embeds `append_to_csv(source_image, extraction)`: open in append mode
(which creates a missing file) and emit one row per item.  `ts` stands for
the single `datetime.now().isoformat()` captured at the top of the call. -/
def append_to_csv (ts source_image : String)
    (extraction : EnrichedMenuExtraction) (f : CsvFile) : CsvFile :=
  some ((f.getD []) ++ (rowsOf ts source_image extraction).map CsvLine.row)

/-- One image processing request, with the oracle results of the effectful
steps inside the `try` block of `process_image`: reading the file bytes,
the extraction call, and the enrichment call.  `ts` is the timestamp
`append_to_csv` would capture for this image.  An `Except.error` models the
step raising an exception. -/
structure ImageJob where
  path : String
  read_result : Except String Unit
  extraction : Except String MenuExtraction
  enrichment : Except String RestaurantEnrichment
  ts : String
deriving Repr

/-- Embeds `process_image(image_path)` acting on the backing file: return
early when the suffix is not a supported image extension; inside the
`try`, read the bytes, run extraction, deduplicate, run enrichment, build
the `EnrichedMenuExtraction` and append it; any raised error is caught by
the `except` clause, which only prints, leaving the file unchanged. -/
def process_image (job : ImageJob) (f : CsvFile) : CsvFile :=
  if (pyLower (pathSuffix job.path)) ∈ IMAGE_EXTENSIONS then
    match job.read_result with
    | .error _ => f
    | .ok _ =>
      match job.extraction with
      | .error _ => f
      | .ok extraction =>
        match job.enrichment with
        | .error _ => f
        | .ok enrichment =>
          let enriched : EnrichedMenuExtraction :=
            { restaurant_name := extraction.restaurant_name
              cuisine_type := enrichment.cuisine_type
              google_rating := enrichment.google_rating
              address := enrichment.address
              items := dedup extraction.items }
          append_to_csv job.ts (pathName job.path) enriched f
  else f

/-- The initial sweep of `main`: `asyncio.gather` over `process_image` for
every pre-existing image.  The event loop is single-threaded and each
append is a synchronous block, so the sweep's effect on the file is the
sequence of the individual pipelines' effects; the fold linearises them in
some completion order (here: list order). -/
def sweep (jobs : List ImageJob) (f : CsvFile) : CsvFile :=
  jobs.foldl (fun acc job => process_image job acc) f

/-- Errors `main` can raise at startup.  The source raises Python
`FileNotFoundError` for a missing watch folder; the specification's error
taxonomy names this condition `StartupConfigurationError`. -/
inductive StartupError where
  | startupConfigurationError (msg : String)
deriving DecidableEq, Repr

/-- The world `main` starts in: whether the watch folder exists, the
pre-existing image jobs found by the directory iteration, and the current
backing file. -/
structure World where
  watch_folder_exists : Bool
  folder_jobs : List ImageJob
  csv : CsvFile

/-- The observable outcome of running `main` up to the end of the initial
sweep: the result (an error, or unit on reaching the watch loop), the
names of the image files whose bytes were read, and the backing file. -/
structure MainOutcome where
  result : Except StartupError Unit
  files_read : List String
  csv : CsvFile
deriving Repr

/-- The files whose bytes the sweep reads: `process_image` calls
`read_bytes` only after the extension check passes. -/
def filesRead (jobs : List ImageJob) : List String :=
  (jobs.filter (fun j => (pyLower (pathSuffix j.path)) ∈ IMAGE_EXTENSIONS)).map
    (fun j => pathName j.path)

/-- Embeds `main()` up to the end of the initial sweep: check the watch
folder and raise `FileNotFoundError` if it is missing (before
`initialize_csv` and before iterating the folder); otherwise initialise
the CSV and run every pre-existing image's pipeline. -/
def main_run (w : World) : MainOutcome :=
  if w.watch_folder_exists then
    let existing_images := w.folder_jobs.filter
      (fun j => (pyLower (pathSuffix j.path)) ∈ IMAGE_EXTENSIONS)
    { result := .ok ()
      files_read := filesRead existing_images
      csv := sweep existing_images (initialize_csv w.csv) }
  else
    { result := .error
        (.startupConfigurationError "Folder 'images_watchfolder' not found")
      files_read := []
      csv := w.csv }

/-- Number of header lines in the backing file (0 when the file is absent). -/
def headerCount (f : CsvFile) : Nat := (f.getD []).count CsvLine.header

/-- Sample item, from the specification's worked dedup example. -/
def soupItem : MenuItem := { dish_name := "Soup", price := 5, category := "Lunch" }

/-- Sample item whose key collides with `soupItem` after strip/lower. -/
def soupItem2 : MenuItem := { dish_name := "soup ", price := 6, category := "Lunch" }

/-- Sample item with a distinct key. -/
def saladItem : MenuItem := { dish_name := "Salad", price := 4, category := "Lunch" }

/-- The item list of the specification's worked dedup example. -/
def exampleItems : List MenuItem := [soupItem, soupItem2, saladItem]

/-- A sample enrichment result with a nonzero rating. -/
def sampleEnriched : EnrichedMenuExtraction :=
  { restaurant_name := "Cafe X", cuisine_type := "Cafe",
    google_rating := some 4, address := "Hameenkatu 1", items := [soupItem] }

/-- A sample enrichment result whose rating is exactly 0. -/
def zeroRatingEnriched : EnrichedMenuExtraction :=
  { restaurant_name := "Cafe X", cuisine_type := "Cafe",
    google_rating := some 0, address := "Hameenkatu 1", items := [soupItem] }

/-- A fully successful image job. -/
def goodJob : ImageJob :=
  { path := "images_watchfolder/menu1.png"
    read_result := .ok ()
    extraction := .ok { restaurant_name := "Cafe X", items := [soupItem] }
    enrichment := .ok { google_rating := some 4, address := "Hameenkatu 1",
                        cuisine_type := "Cafe" }
    ts := "t1" }

/-- An image job whose extraction call raises. -/
def badExtractionJob : ImageJob :=
  { path := "images_watchfolder/menu0.png"
    read_result := .ok ()
    extraction := .error "timeout"
    enrichment := .ok { address := "Unknown", cuisine_type := "Unknown" }
    ts := "t0" }

/-- An image job with a successful extraction whose enrichment call raises. -/
def failingEnrichmentJob : ImageJob :=
  { path := "images_watchfolder/menu2.png"
    read_result := .ok ()
    extraction := .ok { restaurant_name := "Cafe X", items := [soupItem] }
    enrichment := .error "network unreachable"
    ts := "t2" }

-- Sanity checks: the embedded string primitives evaluate as the Python
-- originals do on representative inputs.
example : pathSuffix "images_watchfolder/menu1.PNG" = ".PNG" := by decide
example : get_media_type "a/b.PNG" = "image/png" := by decide
example : get_media_type "x.tiff" = "image/jpeg" := by decide
example : get_media_type "noext" = "image/jpeg" := by decide
example : pathSuffix ".bashrc" = "" := by decide
example : pathSuffix "foo." = "" := by decide
example : dedupKey " Soup " = "soup" := by decide
example :
    dedup [{ dish_name := "Soup", price := 5, category := "Lunch" },
           { dish_name := "soup ", price := 6, category := "Lunch" },
           { dish_name := "Salad", price := 4, category := "Lunch" }] =
      [{ dish_name := "Soup", price := 5, category := "Lunch" },
       { dish_name := "Salad", price := 4, category := "Lunch" }] := by decide
example : ratingCell (some 0) = none := by decide
example : ratingCell (some 4) = some 4 := by decide

/-- Every item `dedupAux` keeps has a key outside `seen`. -/
theorem dedupAux_key_not_seen (xs : List MenuItem) :
    ∀ seen, ∀ y ∈ dedupAux seen xs, dedupKey y.dish_name ∉ seen := by
  induction xs with
  | nil => intro seen y hy; simp [dedupAux] at hy
  | cons x rest ih =>
    intro seen y hy
    by_cases h : dedupKey x.dish_name ∈ seen
    · simp only [dedupAux] at hy
      rw [if_pos h] at hy
      exact ih seen y hy
    · simp only [dedupAux] at hy
      rw [if_neg h] at hy
      rcases List.mem_cons.mp hy with rfl | hy2
      · exact h
      · intro hmem
        exact ih _ y hy2 (List.mem_cons_of_mem _ hmem)

/-- `dedupAux` returns a sublist of its input. -/
theorem dedupAux_sublist (xs : List MenuItem) :
    ∀ seen, (dedupAux seen xs).Sublist xs := by
  induction xs with
  | nil => intro seen; simp [dedupAux]
  | cons x rest ih =>
    intro seen
    by_cases h : dedupKey x.dish_name ∈ seen
    · simp only [dedupAux]
      rw [if_pos h]
      exact (ih seen).cons x
    · simp only [dedupAux]
      rw [if_neg h]
      exact (ih _).cons₂ x

/-- Every item `dedupAux` keeps is the first input item bearing its key. -/
theorem dedupAux_first (xs : List MenuItem) :
    ∀ seen, ∀ y ∈ dedupAux seen xs,
      xs.find? (fun x => dedupKey x.dish_name == dedupKey y.dish_name) = some y := by
  induction xs with
  | nil => intro seen y hy; simp [dedupAux] at hy
  | cons x rest ih =>
    intro seen y hy
    simp only [dedupAux] at hy
    by_cases h : dedupKey x.dish_name ∈ seen
    · rw [if_pos h] at hy
      have hns := dedupAux_key_not_seen rest seen y hy
      have hne : dedupKey x.dish_name ≠ dedupKey y.dish_name := by
        intro he
        exact hns (he ▸ h)
      rw [List.find?_cons_of_neg, ih seen y hy]
      simpa using hne
    · rw [if_neg h] at hy
      rcases List.mem_cons.mp hy with rfl | hy2
      · rw [List.find?_cons_of_pos]
        simp
      · have hns := dedupAux_key_not_seen rest _ y hy2
        have hne : dedupKey x.dish_name ≠ dedupKey y.dish_name := by
          intro he
          exact hns (List.mem_cons.mpr (Or.inl he.symm))
        rw [List.find?_cons_of_neg, ih _ y hy2]
        simpa using hne

/-- Every input key is represented in the output of `dedupAux`. -/
theorem dedupAux_covers (xs : List MenuItem) :
    ∀ seen, ∀ x ∈ xs, dedupKey x.dish_name ∉ seen →
      ∃ y ∈ dedupAux seen xs, dedupKey y.dish_name = dedupKey x.dish_name := by
  induction xs with
  | nil => intro seen x hx; exact absurd hx (List.not_mem_nil x)
  | cons a rest ih =>
    intro seen x hx hxs
    simp only [dedupAux]
    by_cases h : dedupKey a.dish_name ∈ seen
    · rw [if_pos h]
      rcases List.mem_cons.mp hx with rfl | hx2
      · exact absurd h hxs
      · exact ih seen x hx2 hxs
    · rw [if_neg h]
      rcases List.mem_cons.mp hx with rfl | hx2
      · exact ⟨x, List.mem_cons_self _ _, rfl⟩
      · by_cases hk : dedupKey x.dish_name = dedupKey a.dish_name
        · exact ⟨a, List.mem_cons_self _ _, hk.symm⟩
        · obtain ⟨y, hy, hkey⟩ := ih (dedupKey a.dish_name :: seen) x hx2 (by
            intro hmem
            rcases List.mem_cons.mp hmem with hc | hc
            · exact hk hc
            · exact hxs hc)
          exact ⟨y, List.mem_cons_of_mem _ hy, hkey⟩

/-- The items `dedupAux` keeps have pairwise distinct keys. -/
theorem dedupAux_pairwise (xs : List MenuItem) :
    ∀ seen, (dedupAux seen xs).Pairwise
      (fun a b => dedupKey a.dish_name ≠ dedupKey b.dish_name) := by
  induction xs with
  | nil => intro seen; simp [dedupAux]
  | cons x rest ih =>
    intro seen
    by_cases h : dedupKey x.dish_name ∈ seen
    · simp only [dedupAux]
      rw [if_pos h]
      exact ih seen
    · simp only [dedupAux]
      rw [if_neg h]
      refine List.Pairwise.cons ?_ (ih _)
      intro y hy heq
      exact dedupAux_key_not_seen rest _ y hy (List.mem_cons.mpr (Or.inl heq.symm))

/-- A key-distinct list whose keys avoid `seen` is a fixed point of `dedupAux`. -/
theorem dedupAux_fixpoint (xs : List MenuItem) :
    ∀ seen, (∀ x ∈ xs, dedupKey x.dish_name ∉ seen) →
      xs.Pairwise (fun a b => dedupKey a.dish_name ≠ dedupKey b.dish_name) →
      dedupAux seen xs = xs := by
  induction xs with
  | nil => intro seen _ _; rfl
  | cons x rest ih =>
    intro seen hseen hpw
    have hx : dedupKey x.dish_name ∉ seen := hseen x (List.mem_cons_self _ _)
    simp only [dedupAux]
    rw [if_neg hx]
    congr 1
    refine ih _ ?_ (List.pairwise_cons.mp hpw).2
    intro z hz hmem
    rcases List.mem_cons.mp hmem with hc | hc
    · exact absurd hc.symm ((List.pairwise_cons.mp hpw).1 z hz)
    · exact hseen z (List.mem_cons_of_mem _ hz) hc

/-- The lookup in `get_media_type` returns nothing on an unsupported suffix. -/
theorem media_lookup_none (s : String) (h1 : s ≠ ".png") (h2 : s ≠ ".jpg")
    (h3 : s ≠ ".jpeg") (h4 : s ≠ ".gif") (h5 : s ≠ ".webp") :
    media_types.lookup s = none := by
  have b1 : (s == ".png") = false := beq_eq_false_iff_ne.mpr h1
  have b2 : (s == ".jpg") = false := beq_eq_false_iff_ne.mpr h2
  have b3 : (s == ".jpeg") = false := beq_eq_false_iff_ne.mpr h3
  have b4 : (s == ".gif") = false := beq_eq_false_iff_ne.mpr h4
  have b5 : (s == ".webp") = false := beq_eq_false_iff_ne.mpr h5
  simp [media_types, List.lookup, b1, b2, b3, b4, b5]

/-- C3: `dedup` keys items by `dish_name` lower-cased and trimmed, retains
for each key only the first item in input order, returns the retained
items in first-seen order (a sublist of the input), is total (a Lean
function), and maps the empty list to the empty list. -/
theorem dedup_contract (xs : List MenuItem) :
    dedup ([] : List MenuItem) = [] ∧
    (dedup xs).Sublist xs ∧
    (∀ y ∈ dedup xs,
      xs.find? (fun x => dedupKey x.dish_name == dedupKey y.dish_name) = some y) ∧
    (∀ x ∈ xs, ∃ y ∈ dedup xs,
      dedupKey y.dish_name = dedupKey x.dish_name) ∧
    (dedup xs).Pairwise
      (fun a b => dedupKey a.dish_name ≠ dedupKey b.dish_name) := by
  refine ⟨rfl, dedupAux_sublist xs [], ?_, ?_, dedupAux_pairwise xs []⟩
  · exact fun y hy => dedupAux_first xs [] y hy
  · exact fun x hx => dedupAux_covers xs [] x hx (List.not_mem_nil _)

/-- C3 witness: the specification's worked example, instantiating the
contract at `[("Soup",5),("soup ",6),("Salad",4)]`. -/
theorem dedup_contract_witness :
    exampleItems.find?
      (fun x => dedupKey x.dish_name == dedupKey soupItem.dish_name) =
      some soupItem :=
  (dedup_contract exampleItems).2.2.1 soupItem (by decide)

/-- C8: `dedup` is idempotent. -/
theorem dedup_idempotent (xs : List MenuItem) :
    dedup (dedup xs) = dedup xs := by
  unfold dedup
  exact dedupAux_fixpoint (dedupAux [] xs) []
    (fun x _ => List.not_mem_nil _) (dedupAux_pairwise xs [])

/-- C10: `dedup` returns retained items completely unmodified: each output
item equals, in every field, the first input item bearing its trimmed
lower-cased key (so the surviving `dish_name` keeps its original casing
and whitespace). -/
theorem dedup_preserves_items (xs : List MenuItem) :
    ∀ y ∈ dedup xs,
      xs.find? (fun x => dedupKey x.dish_name == dedupKey y.dish_name) = some y :=
  fun y hy => dedupAux_first xs [] y hy

/-- C10 witness: instantiation at the worked example, on the `Salad` item. -/
theorem dedup_preserves_items_witness :
    exampleItems.find?
      (fun x => dedupKey x.dish_name == dedupKey saladItem.dish_name) =
      some saladItem :=
  dedup_preserves_items exampleItems saladItem (by decide)

/-- C9: `get_media_type` returns a non-empty MIME string for every file
name and never fails (it is a total pure function): `.png` maps to
`image/png`, `.jpg` and `.jpeg` to `image/jpeg`, `.gif` to `image/gif`,
`.webp` to `image/webp`, and every other suffix falls back to
`image/jpeg`. -/
theorem get_media_type_spec (p : String) :
    get_media_type p ≠ "" ∧
    (pyLower (pathSuffix p) = ".png" → get_media_type p = "image/png") ∧
    (pyLower (pathSuffix p) = ".jpg" → get_media_type p = "image/jpeg") ∧
    (pyLower (pathSuffix p) = ".jpeg" → get_media_type p = "image/jpeg") ∧
    (pyLower (pathSuffix p) = ".gif" → get_media_type p = "image/gif") ∧
    (pyLower (pathSuffix p) = ".webp" → get_media_type p = "image/webp") ∧
    (pyLower (pathSuffix p) ∉ IMAGE_EXTENSIONS →
      get_media_type p = "image/jpeg") := by
  have hpng : pyLower (pathSuffix p) = ".png" → get_media_type p = "image/png" := by
    intro h; unfold get_media_type; rw [h]; decide
  have hjpg : pyLower (pathSuffix p) = ".jpg" → get_media_type p = "image/jpeg" := by
    intro h; unfold get_media_type; rw [h]; decide
  have hjpeg : pyLower (pathSuffix p) = ".jpeg" → get_media_type p = "image/jpeg" := by
    intro h; unfold get_media_type; rw [h]; decide
  have hgif : pyLower (pathSuffix p) = ".gif" → get_media_type p = "image/gif" := by
    intro h; unfold get_media_type; rw [h]; decide
  have hwebp : pyLower (pathSuffix p) = ".webp" → get_media_type p = "image/webp" := by
    intro h; unfold get_media_type; rw [h]; decide
  have hfb : pyLower (pathSuffix p) ∉ IMAGE_EXTENSIONS →
      get_media_type p = "image/jpeg" := by
    intro h
    simp only [IMAGE_EXTENSIONS, List.mem_cons, List.not_mem_nil, or_false,
      not_or] at h
    obtain ⟨h1, h2, h3, h4, h5⟩ := h
    unfold get_media_type
    rw [media_lookup_none _ h1 h2 h3 h4 h5]
    rfl
  refine ⟨?_, hpng, hjpg, hjpeg, hgif, hwebp, hfb⟩
  by_cases h1 : pyLower (pathSuffix p) = ".png"
  · rw [hpng h1]; decide
  by_cases h2 : pyLower (pathSuffix p) = ".jpg"
  · rw [hjpg h2]; decide
  by_cases h3 : pyLower (pathSuffix p) = ".jpeg"
  · rw [hjpeg h3]; decide
  by_cases h4 : pyLower (pathSuffix p) = ".gif"
  · rw [hgif h4]; decide
  by_cases h5 : pyLower (pathSuffix p) = ".webp"
  · rw [hwebp h5]; decide
  rw [hfb (by simp [IMAGE_EXTENSIONS, h1, h2, h3, h4, h5])]
  decide

/-- C9 witness: an upper-case `.PNG` file resolves to `image/png`. -/
theorem get_media_type_spec_witness :
    get_media_type "images_watchfolder/menu1.PNG" = "image/png" :=
  (get_media_type_spec "images_watchfolder/menu1.PNG").2.1 (by decide)

/-- C6: `initialize_csv` is idempotent, so calling it twice never
duplicates the header row (the header count after two calls equals the
count after one); starting from an absent file, two calls leave exactly
one header row; and a call on an already-existing file is a no-op. -/
theorem initialize_csv_idempotent :
    (∀ f : CsvFile, initialize_csv (initialize_csv f) = initialize_csv f) ∧
    (∀ f : CsvFile,
      headerCount (initialize_csv (initialize_csv f)) =
        headerCount (initialize_csv f)) ∧
    headerCount (initialize_csv (initialize_csv (none : CsvFile))) = 1 ∧
    (∀ c : List CsvLine, initialize_csv (some c) = some c) := by
  have hidem : ∀ f : CsvFile, initialize_csv (initialize_csv f) = initialize_csv f := by
    intro f
    cases f <;> rfl
  exact ⟨hidem, fun f => by rw [hidem f], by decide, fun c => rfl⟩

/-- C4: one `append_to_csv` call with an extraction holding N items
appends exactly N new rows (one per item, nothing else), and every
emitted row carries the call's single timestamp and the extraction's
`restaurant_name`, `cuisine_type`, rating cell and `address`. -/
theorem append_rows_spec (ts src : String) (ex : EnrichedMenuExtraction)
    (f : List CsvLine) :
    append_to_csv ts src ex (some f) =
      some (f ++ (rowsOf ts src ex).map CsvLine.row) ∧
    (rowsOf ts src ex).length = ex.items.length ∧
    (∀ r ∈ rowsOf ts src ex,
      r.timestamp = ts ∧ r.restaurant_name = ex.restaurant_name ∧
      r.cuisine_type = ex.cuisine_type ∧
      r.google_rating = ratingCell ex.google_rating ∧
      r.address = ex.address) := by
  refine ⟨rfl, by simp [rowsOf], ?_⟩
  intro r hr
  simp only [rowsOf, List.mem_map] at hr
  obtain ⟨item, _, rfl⟩ := hr
  exact ⟨rfl, rfl, rfl, rfl, rfl⟩

/-- C4 witness: one item yields one row carrying the call's timestamp. -/
theorem append_rows_spec_witness :
    (rowsOf "t1" "menu1.png" sampleEnriched).length =
      sampleEnriched.items.length ∧
    (rowOf "t1" "menu1.png" sampleEnriched soupItem).timestamp = "t1" :=
  ⟨(append_rows_spec "t1" "menu1.png" sampleEnriched []).2.1,
   ((append_rows_spec "t1" "menu1.png" sampleEnriched []).2.2
      (rowOf "t1" "menu1.png" sampleEnriched soupItem) (by decide)).1⟩

/-- C1 counterexample: an enrichment rating of exactly 0 is on the 0-5
scale and present (`some 0`), yet `extraction.google_rating or ''` writes
the empty cell, so the cell is not empty exactly when the rating is
absent, and a supplied rating of 0 is not stored. -/
theorem google_rating_zero_counterexample :
    zeroRatingEnriched.google_rating = some 0 ∧
    ¬ ∀ r ∈ rowsOf "t1" "menu1.png" zeroRatingEnriched,
        (r.google_rating = none ↔ zeroRatingEnriched.google_rating = none) := by
  exact ⟨rfl, by decide⟩

/-- C1 amended: for every persisted row, the `google_rating` cell is empty
exactly when the enrichment's rating is absent or equal to 0 (Python `or`
treats the float 0.0 as falsy); whenever the enrichment supplies a
nonzero rating, the row contains that rating. -/
theorem google_rating_cell_amended (ts src : String)
    (ex : EnrichedMenuExtraction) :
    ∀ r ∈ rowsOf ts src ex,
      (r.google_rating = none ↔
        (ex.google_rating = none ∨ ex.google_rating = some 0)) ∧
      (∀ v : Rat, ex.google_rating = some v → v ≠ 0 →
        r.google_rating = some v) := by
  intro r hr
  simp only [rowsOf, List.mem_map] at hr
  obtain ⟨item, _, rfl⟩ := hr
  constructor
  · show ratingCell ex.google_rating = none ↔ _
    cases hg : ex.google_rating with
    | none => simp [ratingCell]
    | some v =>
      by_cases hv : v = 0
      · subst hv; simp [ratingCell]
      · simp [ratingCell, hv]
  · intro v hv hv0
    show ratingCell ex.google_rating = some v
    rw [hv]
    simp [ratingCell, hv0]

/-- C1 witness: a nonzero rating of 4 is stored in the emitted row. -/
theorem google_rating_cell_amended_witness :
    (rowOf "t1" "menu1.png" sampleEnriched soupItem).google_rating = some 4 :=
  (google_rating_cell_amended "t1" "menu1.png" sampleEnriched
      (rowOf "t1" "menu1.png" sampleEnriched soupItem) (by decide)).2
    4 rfl (by decide)

/-- C2: whenever an image's extraction succeeds but its enrichment call
raises, `process_image` writes zero rows: the backing file is unchanged. -/
theorem enrichment_failure_writes_no_rows (job : ImageJob) (f : CsvFile)
    (ext : MenuExtraction) (e : String)
    (hx : job.extraction = Except.ok ext)
    (he : job.enrichment = Except.error e) :
    process_image job f = f := by
  by_cases hc : pyLower (pathSuffix job.path) ∈ IMAGE_EXTENSIONS
  · simp only [process_image, if_pos hc, hx, he]
    cases job.read_result <;> rfl
  · simp only [process_image, if_neg hc]

/-- C2 witness: a concrete job with a failing enrichment leaves the file
as it was. -/
theorem enrichment_failure_writes_no_rows_witness :
    process_image failingEnrichmentJob (some [CsvLine.header]) =
      some [CsvLine.header] :=
  enrichment_failure_writes_no_rows failingEnrichmentJob
    (some [CsvLine.header]) { restaurant_name := "Cafe X", items := [soupItem] }
    "network unreachable" rfl rfl

/-- C5: a per-image error is absorbed inside `process_image` (the file is
returned unchanged), so in the initial sweep an extraction failure for
image A neither aborts the batch nor changes any other image's effect on
the store: the sweep over a batch containing A equals the sweep over the
batch with A removed. -/
theorem extraction_failure_isolated (l1 l2 : List ImageJob) (a : ImageJob)
    (f : CsvFile) (e : String) (h : a.extraction = Except.error e) :
    process_image a f = f ∧
    sweep (l1 ++ a :: l2) f = sweep (l1 ++ l2) f := by
  have hpa : ∀ g : CsvFile, process_image a g = g := by
    intro g
    by_cases hc : pyLower (pathSuffix a.path) ∈ IMAGE_EXTENSIONS
    · simp only [process_image, if_pos hc, h]
      cases a.read_result <;> rfl
    · simp only [process_image, if_neg hc]
  refine ⟨hpa f, ?_⟩
  simp only [sweep, List.foldl_append, List.foldl_cons]
  rw [hpa]

/-- C5 witness: in a two-image sweep, the failing image contributes
nothing while the healthy image is still persisted. -/
theorem extraction_failure_isolated_witness :
    sweep [badExtractionJob, goodJob] (some [CsvLine.header]) =
      sweep [goodJob] (some [CsvLine.header]) :=
  (extraction_failure_isolated [] [goodJob] badExtractionJob
    (some [CsvLine.header]) "timeout" rfl).2

/-- C7: when the watched directory does not exist, `main` raises the
startup error (Python `FileNotFoundError`, the specification's
`StartupConfigurationError`) with a message naming the folder, before any
file is read (`files_read = []`) and before any processing begins (the
backing file is untouched, not even initialised). -/
theorem missing_watch_folder_fails_fast (w : World)
    (h : w.watch_folder_exists = false) :
    main_run w =
      { result := Except.error
          (StartupError.startupConfigurationError
            "Folder 'images_watchfolder' not found")
        files_read := []
        csv := w.csv } := by
  simp [main_run, h]

/-- C7 witness: a concrete world with images present but no watch folder. -/
theorem missing_watch_folder_fails_fast_witness :
    main_run { watch_folder_exists := false, folder_jobs := [goodJob],
               csv := none } =
      { result := Except.error
          (StartupError.startupConfigurationError
            "Folder 'images_watchfolder' not found")
        files_read := []
        csv := none } :=
  missing_watch_folder_fails_fast
    { watch_folder_exists := false, folder_jobs := [goodJob], csv := none } rfl

end TampereFood
